import Mathlib

/-!
Shallow embedding of the pz-poker session engine
(`src/server/api/routers/poker.ts`) over its Drizzle schema
(`src/server/db/schema.ts`).

Each table is a list of rows held in a `DB` state; `serial` primary keys
are modelled by per-table sequence counters starting at 1 (Postgres
`serial`).  The `createdAt` timestamp columns are not modelled: no claim
here depends on wall-clock time, and list (insertion) order stands in for
creation order — `orderBy createdAt desc` becomes `List.reverse`.
Each engine mutation is a function `DB → Except Err α × DB`: the second
component is the state after the call (unchanged when the handler throws,
which in the source always happens before any write of that handler).
Zod input validation (`.min(1)` length checks and the `POKER_VALUES`
refinement on `castVote`) runs before the handler body, and is modelled
by guards at the top of each operation.
-/

/-- A row of the `sessions` table. -/
structure Session where
  id : String
  name : String
  currentStoryId : Option Nat
  votesRevealed : Bool
  deriving DecidableEq, Repr

/-- A row of the `participants` table. -/
structure Participant where
  id : Nat
  sessionId : String
  userId : String
  name : String
  isHost : Bool
  deriving DecidableEq, Repr

/-- A row of the `stories` table. -/
structure Story where
  id : Nat
  sessionId : String
  title : String
  description : Option String
  isActive : Bool
  deriving DecidableEq, Repr

/-- A row of the `votes` table. -/
structure Vote where
  id : Nat
  storyId : Nat
  participantId : Nat
  voteValue : String
  deriving DecidableEq, Repr

/-- A row of the `bets` table. -/
structure Bet where
  id : Nat
  storyId : Nat
  participantId : Nat
  betValue : String
  deriving DecidableEq, Repr

/-- The persistent store: the five tables plus the `serial` sequences. -/
structure DB where
  sessions : List Session
  participants : List Participant
  stories : List Story
  votes : List Vote
  bets : List Bet
  participantSeq : Nat
  storySeq : Nat
  voteSeq : Nat
  betSeq : Nat
  deriving DecidableEq, Repr

/-- The error kinds thrown by the handlers, keyed by their messages:
`notFound` = "Session not found" / "Story not found for this bet.",
`invalidValue` = zod input rejection ("Invalid vote value", `.min(1)`),
`noActiveStory` = "No active story to vote on." / "... reveal votes for.",
`inactiveStory` = "Bets can only be placed on active stories.",
`participantNotInSession` = "Participant not found in this session",
`creationFailure` = storage insert did not return the expected row. -/
inductive Err where
  | notFound
  | invalidValue
  | noActiveStory
  | inactiveStory
  | participantNotInSession
  | creationFailure
  deriving DecidableEq, Repr

/-- `const POKER_VALUES = [...]` — the fixed enumerated vote-value set. -/
def POKER_VALUES : List String :=
  ["0", "1/2", "1", "2", "3", "5", "8", "13", "20", "40", "100", "?", "☕️"]

/-- `getCurrentStory`: the story marked active for the given session
(`.limit(1)` with `currentStories[0] ?? null`). -/
def getCurrentStory (db : DB) (sessionId : String) : Option Story :=
  (db.stories.filter (fun st => st.sessionId == sessionId && st.isActive)).head?

/-- Result row of `createSession`. -/
structure CreateSessionResult where
  sessionId : String
  hostId : Nat
  hostName : String
  deriving DecidableEq, Repr

/-- `createSession`: insert the session (its id generated by `nanoid(8)`,
passed here as an argument), then insert the host participant.  An id
collision violates the `sessions` primary key, modelled as a failed
insert. -/
def createSession (db : DB) (sessionId sessionName hostName : String) :
    Except Err CreateSessionResult × DB :=
  if sessionName.length < 1 || hostName.length < 1 then (.error .invalidValue, db)
  else if (db.sessions.find? (fun s => s.id == sessionId)).isSome then
    (.error .creationFailure, db)
  else
    let session : Session :=
      { id := sessionId, name := sessionName, currentStoryId := none, votesRevealed := false }
    let db1 := { db with sessions := db.sessions ++ [session] }
    let participant : Participant :=
      { id := db1.participantSeq, sessionId := session.id, userId := hostName,
        name := hostName, isHost := true }
    let db2 := { db1 with participants := db1.participants ++ [participant],
                          participantSeq := db1.participantSeq + 1 }
    (.ok { sessionId := session.id, hostId := participant.id, hostName := participant.name },
     db2)

/-- `createBet`: check the story exists and is active, check the
participant belongs to the story's session, then upsert on the
`unique_bet_uq` (storyId, participantId) constraint.  Note: the input
schema is `betValue: z.string()` — the value is NOT validated against
`POKER_VALUES`. -/
def createBet (db : DB) (storyId participantId : Nat) (betValue : String) :
    Except Err Bet × DB :=
  match db.stories.find? (fun st => st.id == storyId) with
  | none => (.error .notFound, db)
  | some story =>
    if story.isActive = false then (.error .inactiveStory, db)
    else
      match db.participants.find?
          (fun p => p.id == participantId && p.sessionId == story.sessionId) with
      | none => (.error .participantNotInSession, db)
      | some _ =>
        match db.bets.find? (fun b => b.storyId == storyId && b.participantId == participantId) with
        | some b0 =>
          (.ok { b0 with betValue := betValue },
           { db with bets := db.bets.map (fun b =>
               if b.storyId == storyId && b.participantId == participantId
               then { b with betValue := betValue } else b) })
        | none =>
          let bet : Bet := { id := db.betSeq, storyId := storyId,
                             participantId := participantId, betValue := betValue }
          (.ok bet, { db with bets := db.bets ++ [bet], betSeq := db.betSeq + 1 })

/-- Result row of `joinSession`. -/
structure JoinResult where
  sessionId : String
  participantId : Nat
  participantName : String
  isHost : Bool
  deriving DecidableEq, Repr

/-- `joinSession`: reject an unknown session, return an existing
participant with the same (sessionId, userId=userName) unchanged, else
insert a new non-host participant. -/
def joinSession (db : DB) (sessionId userName : String) :
    Except Err JoinResult × DB :=
  if sessionId.length < 1 || userName.length < 1 then (.error .invalidValue, db)
  else
    match db.sessions.find? (fun s => s.id == sessionId) with
    | none => (.error .notFound, db)
    | some existingSession =>
      match db.participants.find?
          (fun p => p.sessionId == sessionId && p.userId == userName) with
      | some participant =>
        (.ok { sessionId := existingSession.id, participantId := participant.id,
               participantName := participant.name, isHost := participant.isHost }, db)
      | none =>
        let participant : Participant :=
          { id := db.participantSeq, sessionId := sessionId, userId := userName,
            name := userName, isHost := false }
        (.ok { sessionId := existingSession.id, participantId := participant.id,
               participantName := participant.name, isHost := participant.isHost },
         { db with participants := db.participants ++ [participant],
                   participantSeq := db.participantSeq + 1 })


/-- The view assembled by `getSessionDetails`. -/
structure SessionView where
  session : Session
  participants : List Participant
  stories : List Story
  currentStory : Option Story
  votes : Option (List Vote)
  bets : Option (List Bet)
  pokerValues : List String
  deriving DecidableEq, Repr

/-- `getSessionDetails` (read-only): session row with its participants
and stories (newest first), the active story, and — only when an active
story exists — that story's votes and bets. -/
def getSessionDetails (db : DB) (sessionId : String) : Except Err SessionView :=
  match db.sessions.find? (fun s => s.id == sessionId) with
  | none => .error .notFound
  | some sessionDetails =>
    let activeStory := getCurrentStory db sessionId
    .ok { session := sessionDetails,
          participants := db.participants.filter (fun p => p.sessionId == sessionId),
          stories := (db.stories.filter (fun st => st.sessionId == sessionId)).reverse,
          currentStory := activeStory,
          votes := activeStory.map (fun st => db.votes.filter (fun v => v.storyId == st.id)),
          bets := activeStory.map (fun st => db.bets.filter (fun b => b.storyId == st.id)),
          pokerValues := POKER_VALUES }

/-- `addStory`: reject an unknown session; deactivate every story of the
session; insert the new story as active; point the session's
`currentStoryId` at it and reset `votesRevealed`. -/
def addStory (db : DB) (sessionId title : String) (description : Option String) :
    Except Err Story × DB :=
  if title.length < 1 then (.error .invalidValue, db)
  else
    match db.sessions.find? (fun s => s.id == sessionId) with
    | none => (.error .notFound, db)
    | some _ =>
      let db1 := { db with stories := db.stories.map (fun (st : Story) =>
        if st.sessionId == sessionId then { st with isActive := false } else st) }
      let newStory : Story := { id := db1.storySeq, sessionId := sessionId,
                                title := title, description := description, isActive := true }
      let db2 := { db1 with stories := db1.stories ++ [newStory],
                            storySeq := db1.storySeq + 1 }
      let db3 := { db2 with sessions := db2.sessions.map (fun (s : Session) =>
        if s.id == sessionId
        then { s with currentStoryId := some newStory.id, votesRevealed := false } else s) }
      (.ok newStory, db3)

/-- `castVote`: zod-validate the value against `POKER_VALUES`, resolve
the active story, check the participant belongs to the session, then
upsert on the `unique_vote_uq` (storyId, participantId) constraint. -/
def castVote (db : DB) (sessionId : String) (participantId : Nat) (voteValue : String) :
    Except Err Vote × DB :=
  if POKER_VALUES.contains voteValue = false then (.error .invalidValue, db)
  else
    match getCurrentStory db sessionId with
    | none => (.error .noActiveStory, db)
    | some currentStory =>
      match db.participants.find?
          (fun p => p.id == participantId && p.sessionId == sessionId) with
      | none => (.error .participantNotInSession, db)
      | some _ =>
        match db.votes.find?
            (fun w => w.storyId == currentStory.id && w.participantId == participantId) with
        | some w0 =>
          (.ok { w0 with voteValue := voteValue },
           { db with votes := db.votes.map (fun w =>
               if w.storyId == currentStory.id && w.participantId == participantId
               then { w with voteValue := voteValue } else w) })
        | none =>
          let w : Vote := { id := db.voteSeq, storyId := currentStory.id,
                            participantId := participantId, voteValue := voteValue }
          (.ok w, { db with votes := db.votes ++ [w], voteSeq := db.voteSeq + 1 })

/-- Result of `revealVotes` / `clearVotesAndNextStory`. -/
structure Success where
  success : Bool
  deriving DecidableEq, Repr

/-- `revealVotes`: fail when the session has no active story, else set
`votesRevealed = true` on the session. -/
def revealVotes (db : DB) (sessionId : String) : Except Err Success × DB :=
  match getCurrentStory db sessionId with
  | none => (.error .noActiveStory, db)
  | some _ =>
    (.ok { success := true },
     { db with sessions := db.sessions.map (fun s =>
         if s.id == sessionId then { s with votesRevealed := true } else s) })

/-- The `else` arm of `clearVotesAndNextStory`: deactivate the currently
active story of the session. -/
def deactivateCurrent (db : DB) (sessionId : String) : DB :=
  { db with stories := db.stories.map (fun (st : Story) =>
      if st.sessionId == sessionId && st.isActive then { st with isActive := false } else st) }

/-- The `if (input.nextStoryId)` arm of `clearVotesAndNextStory`: the two
story updates — deactivate all stories in the session, then activate the
story with id `n` in this session (a no-op when `n` is not one of this
session's stories). -/
def activateTarget (db : DB) (sessionId : String) (n : Nat) : DB :=
  let db2 : DB := { db with stories := db.stories.map (fun (st : Story) =>
    if st.sessionId == sessionId then { st with isActive := false } else st) }
  { db2 with stories := db2.stories.map (fun (st : Story) =>
    if st.id == n && st.sessionId == sessionId then { st with isActive := true } else st) }

/-- `clearVotesAndNextStory`: reset `votesRevealed` and set
`currentStoryId := nextStoryId ?? null`; then, when `nextStoryId` is
truthy (note: the TS guard `if (input.nextStoryId)` is false for `0`),
deactivate every story of the session and activate the story with that
id *in this session*; otherwise deactivate the currently active story.
No Vote or Bet row is touched. -/
def clearVotesAndNextStory (db : DB) (sessionId : String) (nextStoryId : Option Nat) :
    Except Err Success × DB :=
  let db1 : DB := { db with sessions := db.sessions.map (fun (s : Session) =>
    if s.id == sessionId
    then { s with votesRevealed := false, currentStoryId := nextStoryId } else s) }
  match nextStoryId with
  | some n =>
    if n != 0 then
      (.ok { success := true }, activateTarget db1 sessionId n)
    else
      (.ok { success := true }, deactivateCurrent db1 sessionId)
  | none =>
    (.ok { success := true }, deactivateCurrent db1 sessionId)

/-- One engine operation (the argument of `createSession` that models the
`nanoid(8)` output comes first). -/
inductive Op where
  | createSession (sessionId sessionName hostName : String)
  | joinSession (sessionId userName : String)
  | addStory (sessionId title : String) (description : Option String)
  | castVote (sessionId : String) (participantId : Nat) (voteValue : String)
  | createBet (storyId participantId : Nat) (betValue : String)
  | revealVotes (sessionId : String)
  | clearVotesAndNextStory (sessionId : String) (nextStoryId : Option Nat)
  deriving DecidableEq, Repr

/-- The state after one operation (unchanged when the handler throws). -/
def applyOp (db : DB) : Op → DB
  | .createSession sid sname hname => (createSession db sid sname hname).2
  | .joinSession sid u => (joinSession db sid u).2
  | .addStory sid t d => (addStory db sid t d).2
  | .castVote sid pid v => (castVote db sid pid v).2
  | .createBet stId pid v => (createBet db stId pid v).2
  | .revealVotes sid => (revealVotes db sid).2
  | .clearVotesAndNextStory sid n => (clearVotesAndNextStory db sid n).2

/-- The empty store: no rows, every `serial` sequence at 1. -/
def initDB : DB :=
  { sessions := [], participants := [], stories := [], votes := [], bets := [],
    participantSeq := 1, storySeq := 1, voteSeq := 1, betSeq := 1 }

/-- The state reached by running a sequence of operations on the empty
store. -/
def runOps (ops : List Op) : DB := ops.foldl applyOp initDB

/-- Number of active stories of a session. -/
def activeCount (db : DB) (sid : String) : Nat :=
  db.stories.countP (fun st => st.sessionId == sid && st.isActive)

/-- Number of Vote rows for one (storyId, participantId) pair. -/
def votePairCount (db : DB) (stId pid : Nat) : Nat :=
  db.votes.countP (fun w => w.storyId == stId && w.participantId == pid)

/-- Story-table well-formedness maintained by the engine: the `serial`
sequence is at least 1 and ahead of every id, ids are pairwise distinct
(primary key), and each session has at most one active story. -/
def StoriesWF (db : DB) : Prop :=
  1 ≤ db.storySeq ∧
  (∀ st ∈ db.stories, 1 ≤ st.id ∧ st.id < db.storySeq) ∧
  db.stories.Pairwise (fun a b => a.id ≠ b.id) ∧
  ∀ sid, activeCount db sid ≤ 1

/-- The spec's pointer invariant: a non-null `currentStoryId` references
a story that belongs to that session and is its active story. -/
def CurrentStoryInv (db : DB) : Prop :=
  ∀ s ∈ db.sessions, ∀ n, s.currentStoryId = some n →
    ∃ st ∈ db.stories, st.sessionId = s.id ∧ st.isActive = true ∧ st.id = n

/-- The facts carried through the good-call induction: the story
sequence stays positive, story ids stay positive, and the session
pointer invariant holds. -/
def GoodInv (db : DB) : Prop :=
  1 ≤ db.storySeq ∧ (∀ st ∈ db.stories, 1 ≤ st.id) ∧ CurrentStoryInv db

/-- A call is "good" when `clearVotesAndNextStory` is only ever given a
`nextStoryId` of a story that belongs to the target session; every other
call is unrestricted. -/
def opOk (db : DB) : Op → Prop
  | .clearVotesAndNextStory sid (some n) =>
      ∃ st ∈ db.stories, st.id = n ∧ st.sessionId = sid
  | _ => True

/-- States reachable from the empty store by good calls (see `opOk`). -/
inductive ReachableGood : DB → Prop where
  | init : ReachableGood initDB
  | step {db : DB} {op : Op} :
      ReachableGood db → opOk db op → ReachableGood (applyOp db op)

/-- One session `"s1"` with host Alice and no stories. -/
def oneSessionDB : DB := runOps [Op.createSession "s1" "Sprint" "Alice"]

/-- One session `"s1"` (host Alice) with one active story (id 1). -/
def oneStoryDB : DB :=
  runOps [Op.createSession "s1" "Sprint" "Alice", Op.addStory "s1" "Story" none]

/-- Two sessions; story 1 belongs to `"s2"`; then
`clearVotesAndNextStory "s1" (some 1)` points `"s1"` across sessions. -/
def crossSessionDB : DB :=
  runOps [Op.createSession "s1" "A" "Alice", Op.createSession "s2" "B" "Bob",
          Op.addStory "s2" "S" none, Op.clearVotesAndNextStory "s1" (some 1)]

example : POKER_VALUES.contains "7" = false := by decide
example : (runOps [Op.createSession "s1" "Sprint" "Alice"]).sessions.length = 1 := by decide
example : activeCount (runOps [Op.createSession "s1" "Sprint" "Alice",
    Op.addStory "s1" "Story" none]) "s1" = 1 := by decide

/-! ### Tables each operation leaves untouched -/

theorem createSession_tables (db : DB) (sid sname hname : String) :
    (createSession db sid sname hname).2.stories = db.stories ∧
    (createSession db sid sname hname).2.storySeq = db.storySeq ∧
    (createSession db sid sname hname).2.votes = db.votes ∧
    (createSession db sid sname hname).2.bets = db.bets := by
  unfold createSession
  repeat' split
  all_goals exact ⟨rfl, rfl, rfl, rfl⟩

theorem joinSession_tables (db : DB) (sid u : String) :
    (joinSession db sid u).2.sessions = db.sessions ∧
    (joinSession db sid u).2.stories = db.stories ∧
    (joinSession db sid u).2.storySeq = db.storySeq ∧
    (joinSession db sid u).2.votes = db.votes ∧
    (joinSession db sid u).2.bets = db.bets := by
  unfold joinSession
  repeat' split
  all_goals exact ⟨rfl, rfl, rfl, rfl, rfl⟩

theorem castVote_tables (db : DB) (sid : String) (pid : Nat) (v : String) :
    (castVote db sid pid v).2.sessions = db.sessions ∧
    (castVote db sid pid v).2.participants = db.participants ∧
    (castVote db sid pid v).2.stories = db.stories ∧
    (castVote db sid pid v).2.storySeq = db.storySeq ∧
    (castVote db sid pid v).2.bets = db.bets := by
  unfold castVote
  repeat' split
  all_goals exact ⟨rfl, rfl, rfl, rfl, rfl⟩

theorem createBet_tables (db : DB) (stId pid : Nat) (v : String) :
    (createBet db stId pid v).2.sessions = db.sessions ∧
    (createBet db stId pid v).2.participants = db.participants ∧
    (createBet db stId pid v).2.stories = db.stories ∧
    (createBet db stId pid v).2.storySeq = db.storySeq ∧
    (createBet db stId pid v).2.votes = db.votes := by
  unfold createBet
  repeat' split
  all_goals exact ⟨rfl, rfl, rfl, rfl, rfl⟩

theorem revealVotes_tables (db : DB) (sid : String) :
    (revealVotes db sid).2.participants = db.participants ∧
    (revealVotes db sid).2.stories = db.stories ∧
    (revealVotes db sid).2.storySeq = db.storySeq ∧
    (revealVotes db sid).2.votes = db.votes ∧
    (revealVotes db sid).2.bets = db.bets := by
  unfold revealVotes
  repeat' split
  all_goals exact ⟨rfl, rfl, rfl, rfl, rfl⟩

theorem clearVotes_tables (db : DB) (sid : String) (n? : Option Nat) :
    (clearVotesAndNextStory db sid n?).2.participants = db.participants ∧
    (clearVotesAndNextStory db sid n?).2.storySeq = db.storySeq ∧
    (clearVotesAndNextStory db sid n?).2.votes = db.votes ∧
    (clearVotesAndNextStory db sid n?).2.bets = db.bets := by
  unfold clearVotesAndNextStory deactivateCurrent
  repeat' split
  all_goals exact ⟨rfl, rfl, rfl, rfl⟩

/-! ### Story-table well-formedness is preserved by every operation -/

theorem storiesWF_of_eq {db db' : DB} (hs : db'.stories = db.stories)
    (hq : db'.storySeq = db.storySeq) (h : StoriesWF db) : StoriesWF db' := by
  unfold StoriesWF activeCount at h ⊢
  rw [hs, hq]
  exact h

theorem countP_id_le_one (l : List Story) (n : Nat) (q : Story → Bool)
    (h : l.Pairwise (fun a b => a.id ≠ b.id)) :
    l.countP (fun st => st.id == n && q st) ≤ 1 := by
  induction l with
  | nil => simp
  | cons a l ih =>
    rcases List.pairwise_cons.mp h with ⟨ha, hl⟩
    rw [List.countP_cons]
    by_cases hid : a.id = n
    · have h0 : l.countP (fun st => st.id == n && q st) = 0 := by
        rw [List.countP_eq_zero]
        intro b hb hpb
        have hbn : b.id = n := by
          simp only [Bool.and_eq_true, beq_iff_eq] at hpb
          exact hpb.1
        exact ha b hb (by rw [hid, hbn])
      rw [h0]
      split <;> omega
    · have hpa : (a.id == n && q a) = false := by simp [hid]
      simp only [hpa, Bool.false_eq_true, if_false]
      simpa using ih hl

/-- Deactivating a story (either update of `addStory` /
`clearVotesAndNextStory`) or activating one keeps its `id` and
`sessionId`. -/
theorem story_update_id (c : Bool) (b : Bool) (a : Story) :
    (if c then { a with isActive := b } else a).id = a.id := by
  split <;> rfl

theorem story_update_sessionId (c : Bool) (b : Bool) (a : Story) :
    (if c then { a with isActive := b } else a).sessionId = a.sessionId := by
  split <;> rfl

theorem storiesWF_addStory (db : DB) (sid t : String) (d : Option String)
    (h : StoriesWF db) : StoriesWF (addStory db sid t d).2 := by
  obtain ⟨h1, h2, h3, h4⟩ := h
  unfold addStory
  split
  · exact ⟨h1, h2, h3, h4⟩
  split
  · exact ⟨h1, h2, h3, h4⟩
  dsimp only
  refine ⟨Nat.le_succ_of_le h1, ?_, ?_, ?_⟩
  · intro st hst
    dsimp only at hst ⊢
    rcases List.mem_append.mp hst with hm | hm
    · rcases List.mem_map.mp hm with ⟨a, ha, rfl⟩
      rw [story_update_id]
      have := h2 a ha
      omega
    · rw [List.mem_singleton.mp hm]
      dsimp only
      exact ⟨h1, Nat.lt_succ_self _⟩
  · rw [List.pairwise_append]
    refine ⟨?_, List.pairwise_singleton _ _, ?_⟩
    · rw [List.pairwise_map]
      exact h3.imp (fun hab => by rw [story_update_id, story_update_id]; exact hab)
    · intro a ha b hb
      rcases List.mem_map.mp ha with ⟨a0, ha0, rfl⟩
      rw [List.mem_singleton.mp hb, story_update_id]
      dsimp only
      have := h2 a0 ha0
      omega
  · intro sid2
    unfold activeCount at h4 ⊢
    dsimp only
    rw [List.countP_append, List.countP_map, List.countP_singleton]
    by_cases hs : sid2 = sid
    · subst hs
      have hz : List.countP ((fun st => st.sessionId == sid2 && st.isActive) ∘
          (fun st => if st.sessionId == sid2 then { st with isActive := false } else st))
          db.stories = 0 := by
        rw [List.countP_eq_zero]
        intro a _ hp
        by_cases hc : (a.sessionId == sid2) = true <;>
          simp [Function.comp, hc] at hp
      rw [hz]
      split <;> omega
    · have hmono : List.countP ((fun st => st.sessionId == sid2 && st.isActive) ∘
          (fun st => if st.sessionId == sid then { st with isActive := false } else st))
          db.stories ≤
          List.countP (fun st => st.sessionId == sid2 && st.isActive) db.stories := by
        apply List.countP_mono_left
        intro a _ hp
        by_cases hc : (a.sessionId == sid) = true <;>
          simp [Function.comp, hc] at hp ⊢
        all_goals try exact hp
      have hnew : ((sid == sid2 : Bool) && true) = false := by
        simp only [Bool.and_true, beq_eq_false_iff_ne, ne_eq]
        exact fun hc => hs hc.symm
      simp only [hnew, Bool.false_eq_true, if_false]
      have := h4 sid2
      omega

theorem storiesWF_deactivateCurrent (db : DB) (sid : String)
    (h : StoriesWF db) : StoriesWF (deactivateCurrent db sid) := by
  obtain ⟨h1, h2, h3, h4⟩ := h
  unfold deactivateCurrent
  refine ⟨h1, ?_, ?_, ?_⟩
  · intro st hst
    dsimp only at hst
    rcases List.mem_map.mp hst with ⟨a, ha, rfl⟩
    rw [story_update_id]
    exact h2 a ha
  · dsimp only
    rw [List.pairwise_map]
    exact h3.imp (fun hab => by rw [story_update_id, story_update_id]; exact hab)
  · intro sid2
    unfold activeCount at h4 ⊢
    dsimp only
    rw [List.countP_map]
    refine le_trans (List.countP_mono_left ?_) (h4 sid2)
    intro a _ hp
    by_cases hc : (a.sessionId == sid && a.isActive) = true <;>
      simp [Function.comp, hc] at hp ⊢
    all_goals try exact hp

theorem storiesWF_activateTarget (db : DB) (sid : String) (n : Nat)
    (h : StoriesWF db) : StoriesWF (activateTarget db sid n) := by
  obtain ⟨h1, h2, h3, h4⟩ := h
  unfold activateTarget
  refine ⟨h1, ?_, ?_, ?_⟩
  · intro st hst
    dsimp only at hst
    rw [List.map_map] at hst
    rcases List.mem_map.mp hst with ⟨a, ha, rfl⟩
    simp only [Function.comp]
    rw [story_update_id, story_update_id]
    exact h2 a ha
  · dsimp only
    rw [List.map_map, List.pairwise_map]
    refine h3.imp (fun hab => ?_)
    simp only [Function.comp]
    rw [story_update_id, story_update_id, story_update_id, story_update_id]
    exact hab
  · intro sid2
    unfold activeCount
    dsimp only
    rw [List.map_map, List.countP_map]
    by_cases hs : sid2 = sid
    · subst hs
      refine le_trans (List.countP_mono_left ?_)
        (countP_id_le_one db.stories n (fun st => st.sessionId == sid2) h3)
      intro a _ hp
      by_cases hc : (a.sessionId == sid2) = true <;>
        by_cases hid : (a.id == n) = true <;>
        simp [Function.comp, hc, hid] at hp ⊢
    · refine le_trans (List.countP_mono_left ?_) (h4 sid2)
      intro a _ hp
      by_cases hc : (a.sessionId == sid) = true
      · have hax : a.sessionId = sid := by simpa using hc
        have h2x : (a.sessionId == sid2) = false := by
          rw [hax]
          exact beq_eq_false_iff_ne.mpr (fun q => hs q.symm)
        by_cases hid : (a.id == n) = true <;>
          simp [Function.comp, hc, hid, h2x] at hp
      · by_cases hid : (a.id == n) = true <;>
          simp [Function.comp, hc, hid] at hp ⊢
        all_goals try exact hp

theorem storiesWF_clearVotes (db : DB) (sid : String) (n? : Option Nat)
    (h : StoriesWF db) : StoriesWF (clearVotesAndNextStory db sid n?).2 := by
  have hdb1 : StoriesWF { db with sessions := db.sessions.map (fun (s : Session) =>
      if s.id == sid
      then { s with votesRevealed := false, currentStoryId := n? } else s) } :=
    storiesWF_of_eq rfl rfl h
  unfold clearVotesAndNextStory
  cases n? with
  | none => exact storiesWF_deactivateCurrent _ sid hdb1
  | some n =>
    by_cases hn : (n != 0) = true
    · dsimp only
      rw [if_pos hn]
      exact storiesWF_activateTarget _ sid n hdb1
    · dsimp only
      rw [if_neg hn]
      exact storiesWF_deactivateCurrent _ sid hdb1

theorem storiesWF_of_tables {db db' : DB} (hs : db'.stories = db.stories)
    (hq : db'.storySeq = db.storySeq) (h : StoriesWF db) : StoriesWF db' :=
  storiesWF_of_eq hs hq h

theorem storiesWF_applyOp (db : DB) (op : Op) (h : StoriesWF db) :
    StoriesWF (applyOp db op) := by
  cases op with
  | createSession sid sname hname =>
    have hp := createSession_tables db sid sname hname
    exact storiesWF_of_eq hp.1 hp.2.1 h
  | joinSession sid u =>
    have hp := joinSession_tables db sid u
    exact storiesWF_of_eq hp.2.1 hp.2.2.1 h
  | addStory sid t d => exact storiesWF_addStory db sid t d h
  | castVote sid pid v =>
    have hp := castVote_tables db sid pid v
    exact storiesWF_of_eq hp.2.2.1 hp.2.2.2.1 h
  | createBet stId pid v =>
    have hp := createBet_tables db stId pid v
    exact storiesWF_of_eq hp.2.2.1 hp.2.2.2.1 h
  | revealVotes sid =>
    have hp := revealVotes_tables db sid
    exact storiesWF_of_eq hp.2.1 hp.2.2.1 h
  | clearVotesAndNextStory sid n => exact storiesWF_clearVotes db sid n h

theorem storiesWF_initDB : StoriesWF initDB := by
  refine ⟨Nat.le_refl 1, ?_, ?_, ?_⟩ <;> simp [initDB, activeCount]

theorem storiesWF_runOps (ops : List Op) : StoriesWF (runOps ops) := by
  unfold runOps
  have hgen : ∀ (db : DB), StoriesWF db → StoriesWF (ops.foldl applyOp db) := by
    induction ops with
    | nil => exact fun db h => h
    | cons op ops ih => exact fun db h => ih _ (storiesWF_applyOp db op h)
  exact hgen initDB storiesWF_initDB

/-! ### Claim theorems -/

/-- C1: for every session and after every sequence of engine operations
(createSession, joinSession, addStory, castVote, createBet, revealVotes,
clearVotesAndNextStory) from the empty store, at most one story belonging
to that session has `isActive = true`. -/
theorem c1_at_most_one_active_story (ops : List Op) (sid : String) :
    activeCount (runOps ops) sid ≤ 1 :=
  (storiesWF_runOps ops).2.2.2 sid

/-- C3: on an existing session, regardless of prior state, `addStory`
succeeds, the new story is the session's unique active story, and the
session row ends with `votesRevealed = false` and `currentStoryId`
pointing at the new story. -/
theorem c3_addStory_resets (db : DB) (sid t : String) (d : Option String)
    (hsess : ∃ s ∈ db.sessions, s.id = sid) (ht : 1 ≤ t.length) :
    ∃ ns db2, addStory db sid t d = (.ok ns, db2) ∧
      ns.sessionId = sid ∧ ns.isActive = true ∧
      db2.stories.filter (fun st => st.sessionId == sid && st.isActive) = [ns] ∧
      ∀ s ∈ db2.sessions, s.id = sid →
        s.votesRevealed = false ∧ s.currentStoryId = some ns.id := by
  unfold addStory
  rw [if_neg (by omega)]
  obtain ⟨s0, hs0mem, hs0id⟩ := hsess
  have hfind : (db.sessions.find? (fun s => s.id == sid)).isSome := by
    rw [List.find?_isSome]
    exact ⟨s0, hs0mem, by simp [hs0id]⟩
  obtain ⟨sF, hsF⟩ := Option.isSome_iff_exists.mp hfind
  rw [hsF]
  dsimp only
  refine ⟨_, _, rfl, rfl, rfl, ?_, ?_⟩
  · rw [List.filter_append]
    have hnil : (db.stories.map (fun st =>
        if st.sessionId == sid then { st with isActive := false } else st)).filter
        (fun st => st.sessionId == sid && st.isActive) = [] := by
      rw [List.filter_eq_nil_iff]
      intro a ha
      rcases List.mem_map.mp ha with ⟨a0, _, rfl⟩
      by_cases hc : (a0.sessionId == sid) = true <;> simp [hc]
    rw [hnil]
    simp
  · intro s hsmem hsid
    dsimp only at hsmem
    rcases List.mem_map.mp hsmem with ⟨a, _, rfl⟩
    by_cases hc : (a.id == sid) = true
    · simp [hc]
    · rw [if_neg (by simp [hc])] at hsid ⊢
      exact absurd hsid (by simpa using hc)

/-- C3 witness: a concrete successful `addStory` on a fresh session. -/
theorem c3_addStory_resets_witness :
    ∃ ns db2,
      addStory (runOps [Op.createSession "s1" "Sprint" "Alice"]) "s1" "Story" none
        = (.ok ns, db2) ∧
      ns.sessionId = "s1" ∧ ns.isActive = true ∧
      db2.stories.filter (fun st => st.sessionId == "s1" && st.isActive) = [ns] ∧
      ∀ s ∈ db2.sessions, s.id = "s1" →
        s.votesRevealed = false ∧ s.currentStoryId = some ns.id :=
  c3_addStory_resets _ "s1" "Story" none (by decide) (by decide)

/-- C7: for every input, `castVote` with a `voteValue` outside
`POKER_VALUES` fails with `InvalidValue` and the store is unchanged — no
Vote row is written. -/
theorem c7_castVote_invalid_value (db : DB) (sid : String) (pid : Nat) (v : String)
    (hv : POKER_VALUES.contains v = false) :
    castVote db sid pid v = (.error .invalidValue, db) := by
  unfold castVote
  rw [if_pos hv]

/-- C7 witness: `castVote` with the out-of-set value "7" on a session
with an active story. -/
theorem c7_castVote_invalid_value_witness :
    castVote oneStoryDB "s1" 1 "7" = (.error Err.invalidValue, oneStoryDB) :=
  c7_castVote_invalid_value oneStoryDB "s1" 1 "7" (by decide)

/-- C9: `clearVotesAndNextStory` with no `nextStoryId` succeeds, leaves
the session with no active story, `votesRevealed = false` and
`currentStoryId = null`, and deletes no Vote or Bet row. -/
theorem c9_clear_no_target (db : DB) (sid : String) :
    (clearVotesAndNextStory db sid none).1 = .ok { success := true } ∧
    (clearVotesAndNextStory db sid none).2.stories.filter
      (fun st => st.sessionId == sid && st.isActive) = [] ∧
    (∀ s ∈ (clearVotesAndNextStory db sid none).2.sessions, s.id = sid →
      s.votesRevealed = false ∧ s.currentStoryId = none) ∧
    (clearVotesAndNextStory db sid none).2.votes = db.votes ∧
    (clearVotesAndNextStory db sid none).2.bets = db.bets := by
  unfold clearVotesAndNextStory deactivateCurrent
  dsimp only
  refine ⟨rfl, ?_, ?_, rfl, rfl⟩
  · rw [List.filter_eq_nil_iff]
    intro a ha
    rcases List.mem_map.mp ha with ⟨a0, _, rfl⟩
    by_cases hc : (a0.sessionId == sid && a0.isActive) = true <;> simp [hc]
  · intro s hsmem hsid
    rcases List.mem_map.mp hsmem with ⟨a, _, rfl⟩
    by_cases hc : (a.id == sid) = true
    · simp [hc]
    · rw [if_neg (by simp [hc])] at hsid ⊢
      exact absurd hsid (by simpa using hc)

/-- C8: `revealVotes` fails with `NoActiveStory` exactly when the session
has no active story; with an active story it succeeds, sets
`votesRevealed = true`, and calling it again succeeds and changes
nothing (idempotent no-op, not an error). -/
theorem c8_revealVotes_spec (db : DB) (sid : String) :
    ((revealVotes db sid).1 = .error Err.noActiveStory ↔ getCurrentStory db sid = none) ∧
    ((revealVotes db sid).1 = .error Err.noActiveStory → (revealVotes db sid).2 = db) ∧
    (getCurrentStory db sid ≠ none →
      (revealVotes db sid).1 = .ok { success := true } ∧
      (∀ s ∈ (revealVotes db sid).2.sessions, s.id = sid → s.votesRevealed = true) ∧
      (revealVotes (revealVotes db sid).2 sid).1 = .ok { success := true } ∧
      (revealVotes (revealVotes db sid).2 sid).2 = (revealVotes db sid).2) := by
  cases hcs : getCurrentStory db sid with
  | none =>
    unfold revealVotes
    rw [hcs]
    exact ⟨by simp, fun _ => rfl, fun hne => absurd rfl hne⟩
  | some st =>
    have hcs2 : getCurrentStory { db with sessions := db.sessions.map (fun (s : Session) =>
        if s.id == sid then { s with votesRevealed := true } else s) } sid
        = some st := hcs
    unfold revealVotes
    rw [hcs]
    dsimp only
    rw [hcs2]
    refine ⟨by simp, by simp, fun _ => ⟨rfl, ?_, rfl, ?_⟩⟩
    · intro s hsmem hsid
      rcases List.mem_map.mp hsmem with ⟨a, _, rfl⟩
      by_cases hc : (a.id == sid) = true
      · simp [hc]
      · rw [if_neg (by simp [hc])] at hsid ⊢
        exact absurd hsid (by simpa using hc)
    · have hmm : (db.sessions.map (fun (s : Session) =>
          if s.id == sid then { s with votesRevealed := true } else s)).map
          (fun (s : Session) => if s.id == sid then { s with votesRevealed := true } else s)
          = db.sessions.map (fun (s : Session) =>
            if s.id == sid then { s with votesRevealed := true } else s) := by
        rw [List.map_map]
        apply List.map_congr_left
        intro a _
        by_cases hc : (a.id == sid) = true <;> simp [Function.comp, hc]
      rw [hmm]

/-- C8 witness: revealing a session with an active story succeeds twice
in a row. -/
theorem c8_revealVotes_spec_witness :
    (revealVotes oneStoryDB "s1").1 = .ok { success := true } ∧
    (revealVotes (revealVotes oneStoryDB "s1").2 "s1").1 = .ok { success := true } :=
  ⟨((c8_revealVotes_spec oneStoryDB "s1").2.2 (by decide)).1,
   ((c8_revealVotes_spec oneStoryDB "s1").2.2 (by decide)).2.2.1⟩

theorem map_eq_self_of_fix {α : Type} (l : List α) (f : α → α)
    (h : ∀ a ∈ l, f a = a) : l.map f = l := by
  induction l with
  | nil => rfl
  | cons a l ih =>
    rw [List.map_cons, h a (List.mem_cons_self a l),
        ih (fun b hb => h b (List.mem_cons_of_mem a hb))]

/-- C10: `clearVotesAndNextStory` performs no session-existence check:
called with an unknown sessionId (under referential integrity of the
stories table) it returns success and no row of any table changes,
whereas `joinSession`, `addStory` and `getSessionDetails` reject the
unknown session with `NotFound`. -/
theorem c10_clear_unknown_session (db : DB) (sid u t : String) (d : Option String)
    (n? : Option Nat)
    (hs : db.sessions.find? (fun s => s.id == sid) = none)
    (hfk : ∀ st ∈ db.stories, ∃ s ∈ db.sessions, st.sessionId = s.id)
    (hsid : 1 ≤ sid.length) (hu : 1 ≤ u.length) (ht : 1 ≤ t.length) :
    clearVotesAndNextStory db sid n? = (.ok { success := true }, db) ∧
    joinSession db sid u = (.error .notFound, db) ∧
    addStory db sid t d = (.error .notFound, db) ∧
    getSessionDetails db sid = .error .notFound := by
  have hnos : ∀ s ∈ db.sessions, (s.id == sid) = false := by
    intro s hsm
    simpa using List.find?_eq_none.mp hs s hsm
  have hnost : ∀ st ∈ db.stories, (st.sessionId == sid) = false := by
    intro st hstm
    obtain ⟨s, hsm, hseq⟩ := hfk st hstm
    rw [hseq]
    exact hnos s hsm
  have hsess : db.sessions.map (fun (s : Session) =>
      if s.id == sid then { s with votesRevealed := false, currentStoryId := n? } else s)
      = db.sessions :=
    map_eq_self_of_fix _ _ (fun a ha => if_neg (by simp [hnos a ha]))
  have hdeact : db.stories.map (fun (st : Story) =>
      if st.sessionId == sid && st.isActive then { st with isActive := false } else st)
      = db.stories :=
    map_eq_self_of_fix _ _ (fun a ha => if_neg (by simp [hnost a ha]))
  have hdeall : db.stories.map (fun (st : Story) =>
      if st.sessionId == sid then { st with isActive := false } else st)
      = db.stories :=
    map_eq_self_of_fix _ _ (fun a ha => if_neg (by simp [hnost a ha]))
  refine ⟨?_, ?_, ?_, ?_⟩
  · unfold clearVotesAndNextStory
    dsimp only
    cases n? with
    | none =>
      unfold deactivateCurrent
      rw [hsess]
      dsimp only
      rw [hdeact]
    | some n =>
      dsimp only
      by_cases hn : (n != 0) = true
      · rw [if_pos hn]
        unfold activateTarget
        rw [hsess]
        dsimp only
        rw [hdeall]
        have hact : db.stories.map (fun (st : Story) =>
            if st.id == n && st.sessionId == sid then { st with isActive := true } else st)
            = db.stories :=
          map_eq_self_of_fix _ _ (fun a ha => if_neg (by simp [hnost a ha]))
        rw [hact]
      · rw [if_neg hn]
        unfold deactivateCurrent
        rw [hsess]
        dsimp only
        rw [hdeact]
  · unfold joinSession
    rw [if_neg (by simp only [Bool.or_eq_true, decide_eq_true_eq]; omega), hs]
  · unfold addStory
    rw [if_neg (by omega), hs]
  · unfold getSessionDetails
    rw [hs]

/-- C10 witness: an unknown session id against a store holding one
session and one story. -/
theorem c10_clear_unknown_session_witness :
    clearVotesAndNextStory oneStoryDB "zz" none = (.ok { success := true }, oneStoryDB) ∧
    joinSession oneStoryDB "zz" "Bob" = (.error .notFound, oneStoryDB) ∧
    addStory oneStoryDB "zz" "T" none = (.error .notFound, oneStoryDB) ∧
    getSessionDetails oneStoryDB "zz" = .error .notFound :=
  c10_clear_unknown_session oneStoryDB "zz" "Bob" "T" none none (by decide) (by decide)
    (by decide) (by decide) (by decide)

/-- C6: joining twice with the same (sessionId, userName) returns the
same participant id and the same isHost both times and inserts no row on
the second call; a rejoin returns the stored participant unchanged
(isHost preserved), while a genuinely new name is created with
`isHost = false`. -/
theorem c6_joinSession_idempotent (db : DB) (sid u : String)
    (r1 r2 : JoinResult) (db1 db2 : DB)
    (h1 : joinSession db sid u = (.ok r1, db1))
    (h2 : joinSession db1 sid u = (.ok r2, db2)) :
    r2.participantId = r1.participantId ∧ r2.isHost = r1.isHost ∧ db2 = db1 ∧
    (db.participants.find? (fun p => p.sessionId == sid && p.userId == u) = none →
      r1.isHost = false) ∧
    (∀ p0, db.participants.find? (fun p => p.sessionId == sid && p.userId == u) = some p0 →
      r1.participantId = p0.id ∧ r1.isHost = p0.isHost) := by
  unfold joinSession at h1 h2
  by_cases hg : ((decide (sid.length < 1) || decide (u.length < 1)) = true)
  · rw [if_pos hg] at h1
    exact absurd h1 (by simp)
  rw [if_neg hg] at h1
  cases hsf : db.sessions.find? (fun s => s.id == sid) with
  | none =>
    rw [hsf] at h1
    exact absurd h1 (by simp)
  | some s0 =>
    rw [hsf] at h1
    cases hpf : db.participants.find? (fun p => p.sessionId == sid && p.userId == u) with
    | some p0 =>
      rw [hpf] at h1
      simp only [Prod.mk.injEq, Except.ok.injEq] at h1
      obtain ⟨hr1, hdb1⟩ := h1
      subst hdb1
      rw [if_neg hg, hsf, hpf] at h2
      simp only [Prod.mk.injEq, Except.ok.injEq] at h2
      obtain ⟨hr2, hdb2⟩ := h2
      subst hdb2
      subst hr1
      subst hr2
      refine ⟨rfl, rfl, rfl, ?_, ?_⟩
      · intro hnone
        exact absurd hnone (by simp)
      · intro p1 hp1
        injection hp1 with hp1
        subst hp1
        exact ⟨rfl, rfl⟩
    | none =>
      rw [hpf] at h1
      simp only [Prod.mk.injEq, Except.ok.injEq] at h1
      obtain ⟨hr1, hdb1⟩ := h1
      have hsf1 : db1.sessions.find? (fun s => s.id == sid) = some s0 := by
        rw [← hdb1]
        exact hsf
      have hpf1 : db1.participants.find? (fun p => p.sessionId == sid && p.userId == u)
          = some { id := db.participantSeq, sessionId := sid, userId := u, name := u,
                   isHost := false } := by
        rw [← hdb1]
        show (db.participants ++ [_]).find? _ = _
        rw [List.find?_append, hpf]
        simp
      rw [if_neg hg, hsf1, hpf1] at h2
      simp only [Prod.mk.injEq, Except.ok.injEq] at h2
      obtain ⟨hr2, hdb2⟩ := h2
      subst hdb2
      subst hr1
      subst hr2
      refine ⟨rfl, rfl, rfl, fun _ => rfl, ?_⟩
      intro p1 hp1
      exact absurd hp1 (by simp)

/-- C6 witness: the host Alice rejoins her own fresh session; the same
participant id comes back, `isHost` stays true, and no row is added. -/
theorem c6_joinSession_idempotent_witness :
    ∃ (r1 r2 : JoinResult) (db1 db2 : DB),
      joinSession oneSessionDB "s1" "Alice" = (.ok r1, db1) ∧
      joinSession db1 "s1" "Alice" = (.ok r2, db2) ∧
      r2.participantId = r1.participantId ∧ r2.isHost = r1.isHost ∧ db2 = db1 := by
  refine ⟨_, _, _, _, rfl, rfl, ?_, ?_, ?_⟩
  · exact (c6_joinSession_idempotent oneSessionDB "s1" "Alice" _ _ _ _ rfl rfl).1
  · exact (c6_joinSession_idempotent oneSessionDB "s1" "Alice" _ _ _ _ rfl rfl).2.1
  · exact (c6_joinSession_idempotent oneSessionDB "s1" "Alice" _ _ _ _ rfl rfl).2.2.1

/-- The vote upsert's `onConflictDoUpdate` arm rewrites exactly the rows
of the conflicting (storyId, participantId) pair, so filtering for the
pair commutes with the update. -/
theorem filter_update_votes (l : List Vote) (stId pid : Nat) (v : String) :
    (l.map (fun w => if w.storyId == stId && w.participantId == pid
        then { w with voteValue := v } else w)).filter
      (fun w => w.storyId == stId && w.participantId == pid)
    = (l.filter (fun w => w.storyId == stId && w.participantId == pid)).map
        (fun w => { w with voteValue := v }) := by
  rw [List.filter_map]
  have hps : l.filter ((fun w => w.storyId == stId && w.participantId == pid) ∘
      (fun w => if w.storyId == stId && w.participantId == pid
        then { w with voteValue := v } else w))
      = l.filter (fun w => w.storyId == stId && w.participantId == pid) := by
    apply List.filter_congr
    intro a _
    by_cases hc : (a.storyId == stId && a.participantId == pid) = true <;>
      simp [Function.comp, hc]
  rw [hps]
  apply List.map_congr_left
  intro a ha
  rw [if_pos (List.mem_filter.mp ha).2]

/-- A successful `castVote` whose session already has exactly one Vote
row for (current story, participant) updates that row in place. -/
theorem castVote_second (db1 : DB) (sid : String) (pid : Nat) (v2 : String) (cs : Story)
    (r2 : Vote) (db2 : DB) (y : Vote)
    (hcs1 : getCurrentStory db1 sid = some cs)
    (hpp1 : (db1.participants.find? (fun p => p.id == pid && p.sessionId == sid)).isSome)
    (hA : db1.votes.filter (fun w => w.storyId == cs.id && w.participantId == pid) = [y])
    (h2 : castVote db1 sid pid v2 = (.ok r2, db2)) :
    r2.storyId = cs.id ∧
    (db2.votes.filter (fun w => w.storyId == cs.id && w.participantId == pid)).map
      (fun w => w.voteValue) = [v2] ∧
    db2.votes.length = db1.votes.length := by
  unfold castVote at h2
  by_cases hc2 : (POKER_VALUES.contains v2 = false)
  · rw [if_pos hc2] at h2
    exact absurd h2 (by simp)
  rw [if_neg hc2, hcs1] at h2
  dsimp only at h2
  obtain ⟨pp, hpp⟩ := Option.isSome_iff_exists.mp hpp1
  rw [hpp] at h2
  dsimp only at h2
  have hymem : y ∈ db1.votes ∧ (y.storyId == cs.id && y.participantId == pid) = true := by
    have hy : y ∈ db1.votes.filter (fun w => w.storyId == cs.id && w.participantId == pid) := by
      rw [hA]
      exact List.mem_singleton_self y
    exact List.mem_filter.mp hy
  cases hvf2 : db1.votes.find? (fun w => w.storyId == cs.id && w.participantId == pid) with
  | none =>
    exact absurd hymem.2 (List.find?_eq_none.mp hvf2 y hymem.1)
  | some x =>
    rw [hvf2] at h2
    simp only [Prod.mk.injEq, Except.ok.injEq] at h2
    obtain ⟨hr2, hdb2⟩ := h2
    have hx := List.find?_some hvf2
    refine ⟨?_, ?_, ?_⟩
    · rw [← hr2]
      have hids := (Bool.and_eq_true _ _).mp hx
      simpa using hids.1
    · rw [← hdb2]
      show ((db1.votes.map _).filter _).map _ = _
      rw [filter_update_votes, hA]
      rfl
    · rw [← hdb2]
      exact List.length_map _ _

/-- C2: casting two votes in sequence for the same (storyId,
participantId) pair leaves exactly one Vote row for that pair, its value
is the most recently cast one, and the second cast adds no row. -/
theorem c2_castVote_upsert (db : DB) (sid : String) (pid : Nat) (v1 v2 : String)
    (r1 r2 : Vote) (db1 db2 : DB)
    (huniq : ∀ stId p, votePairCount db stId p ≤ 1)
    (h1 : castVote db sid pid v1 = (.ok r1, db1))
    (h2 : castVote db1 sid pid v2 = (.ok r2, db2)) :
    r2.storyId = r1.storyId ∧
    (db2.votes.filter (fun w => w.storyId == r1.storyId && w.participantId == pid)).map
      (fun w => w.voteValue) = [v2] ∧
    db2.votes.length = db1.votes.length := by
  unfold castVote at h1
  by_cases hc1 : (POKER_VALUES.contains v1 = false)
  · rw [if_pos hc1] at h1
    exact absurd h1 (by simp)
  rw [if_neg hc1] at h1
  cases hcs : getCurrentStory db sid with
  | none =>
    rw [hcs] at h1
    exact absurd h1 (by simp)
  | some cs =>
    rw [hcs] at h1
    dsimp only at h1
    cases hpp : db.participants.find? (fun p => p.id == pid && p.sessionId == sid) with
    | none =>
      rw [hpp] at h1
      exact absurd h1 (by simp)
    | some pp =>
      rw [hpp] at h1
      dsimp only at h1
      cases hvf : db.votes.find? (fun w => w.storyId == cs.id && w.participantId == pid) with
      | some w0 =>
        rw [hvf] at h1
        simp only [Prod.mk.injEq, Except.ok.injEq] at h1
        obtain ⟨hr1, hdb1⟩ := h1
        have hcs1 : getCurrentStory db1 sid = some cs := by
          rw [← hdb1]
          exact hcs
        have hpp1 : (db1.participants.find? (fun p => p.id == pid && p.sessionId == sid)).isSome := by
          rw [← hdb1]
          show (db.participants.find? _).isSome
          rw [hpp]
          rfl
        have hw0 := List.find?_some hvf
        have hw0mem := List.mem_of_find?_eq_some hvf
        have hone : (db.votes.filter
            (fun w => w.storyId == cs.id && w.participantId == pid)).length = 1 := by
          have hle := huniq cs.id pid
          unfold votePairCount at hle
          rw [List.countP_eq_length_filter] at hle
          have hmem : w0 ∈ db.votes.filter
              (fun w => w.storyId == cs.id && w.participantId == pid) :=
            List.mem_filter.mpr ⟨hw0mem, hw0⟩
          have hpos := List.length_pos_of_mem hmem
          omega
        obtain ⟨y, hy⟩ := List.length_eq_one.mp hone
        have hA : db1.votes.filter (fun w => w.storyId == cs.id && w.participantId == pid)
            = [{ y with voteValue := v1 }] := by
          rw [← hdb1]
          show ((db.votes.map _).filter _) = _
          rw [filter_update_votes, hy]
          rfl
        have hB : r1.storyId = cs.id := by
          rw [← hr1]
          have hids := (Bool.and_eq_true _ _).mp hw0
          simpa using hids.1
        rw [hB]
        exact castVote_second db1 sid pid v2 cs r2 db2 _ hcs1 hpp1 hA h2
      | none =>
        rw [hvf] at h1
        simp only [Prod.mk.injEq, Except.ok.injEq] at h1
        obtain ⟨hr1, hdb1⟩ := h1
        have hcs1 : getCurrentStory db1 sid = some cs := by
          rw [← hdb1]
          exact hcs
        have hpp1 : (db1.participants.find? (fun p => p.id == pid && p.sessionId == sid)).isSome := by
          rw [← hdb1]
          show (db.participants.find? _).isSome
          rw [hpp]
          rfl
        have hnil : db.votes.filter (fun w => w.storyId == cs.id && w.participantId == pid)
            = [] := by
          rw [List.filter_eq_nil_iff]
          exact List.find?_eq_none.mp hvf
        have hA : db1.votes.filter (fun w => w.storyId == cs.id && w.participantId == pid)
            = [{ id := db.voteSeq, storyId := cs.id, participantId := pid, voteValue := v1 }] := by
          rw [← hdb1]
          show (db.votes ++ _).filter _ = _
          rw [List.filter_append, hnil]
          simp
        have hB : r1.storyId = cs.id := by
          rw [← hr1]
        rw [hB]
        exact castVote_second db1 sid pid v2 cs r2 db2 _ hcs1 hpp1 hA h2

/-- C2 witness: Alice votes "3" then "5" on the same story; one row with
value "5" remains. -/
theorem c2_castVote_upsert_witness :
    ∃ (r1 r2 : Vote) (db1 db2 : DB),
      castVote oneStoryDB "s1" 1 "3" = (.ok r1, db1) ∧
      castVote db1 "s1" 1 "5" = (.ok r2, db2) ∧
      (db2.votes.filter (fun w => w.storyId == r1.storyId && w.participantId == 1)).map
        (fun w => w.voteValue) = ["5"] ∧
      db2.votes.length = db1.votes.length := by
  have hu : ∀ stId p, votePairCount oneStoryDB stId p ≤ 1 := by
    intro stId p
    unfold votePairCount
    rw [show oneStoryDB.votes = [] from by decide]
    simp
  refine ⟨_, _, _, _, rfl, rfl, ?_, ?_⟩
  · exact (c2_castVote_upsert oneStoryDB "s1" 1 "3" "5" _ _ _ _ hu rfl rfl).2.1
  · exact (c2_castVote_upsert oneStoryDB "s1" 1 "3" "5" _ _ _ _ hu rfl rfl).2.2

theorem goodInv_of_eq {db db2 : DB} (hsess : db2.sessions = db.sessions)
    (hst : db2.stories = db.stories) (hq : db2.storySeq = db.storySeq)
    (h : GoodInv db) : GoodInv db2 := by
  unfold GoodInv CurrentStoryInv at h ⊢
  rw [hsess, hst, hq]
  exact h

theorem goodInv_createSession (db : DB) (sid sname hname : String)
    (h : GoodInv db) : GoodInv (createSession db sid sname hname).2 := by
  obtain ⟨h1, h2, h3⟩ := h
  unfold createSession
  split
  · exact ⟨h1, h2, h3⟩
  split
  · exact ⟨h1, h2, h3⟩
  dsimp only
  refine ⟨h1, h2, ?_⟩
  intro s hs n hn
  rcases List.mem_append.mp hs with hm | hm
  · exact h3 s hm n hn
  · rw [List.mem_singleton.mp hm] at hn
    exact absurd hn (by simp)

theorem goodInv_revealVotes (db : DB) (sid : String)
    (h : GoodInv db) : GoodInv (revealVotes db sid).2 := by
  obtain ⟨h1, h2, h3⟩ := h
  unfold revealVotes
  cases hcs : getCurrentStory db sid with
  | none => exact ⟨h1, h2, h3⟩
  | some st =>
    dsimp only
    refine ⟨h1, h2, ?_⟩
    intro s hs n hn
    rcases List.mem_map.mp hs with ⟨a, ha, rfl⟩
    by_cases hc : (a.id == sid) = true
    · rw [if_pos hc] at hn ⊢
      exact h3 a ha n hn
    · rw [if_neg hc] at hn ⊢
      exact h3 a ha n hn

theorem goodInv_addStory (db : DB) (sid t : String) (d : Option String)
    (h : GoodInv db) : GoodInv (addStory db sid t d).2 := by
  obtain ⟨h1, h2, h3⟩ := h
  unfold addStory
  split
  · exact ⟨h1, h2, h3⟩
  split
  · exact ⟨h1, h2, h3⟩
  dsimp only
  refine ⟨Nat.le_succ_of_le h1, ?_, ?_⟩
  · intro st hst
    dsimp only at hst
    rcases List.mem_append.mp hst with hm | hm
    · rcases List.mem_map.mp hm with ⟨a, ha, rfl⟩
      rw [story_update_id]
      exact h2 a ha
    · rw [List.mem_singleton.mp hm]
      exact h1
  · intro s hs n hn
    dsimp only at hs hn ⊢
    rcases List.mem_map.mp hs with ⟨a, ha, rfl⟩
    by_cases hc : (a.id == sid) = true
    · rw [if_pos hc] at hn ⊢
      dsimp only at hn ⊢
      injection hn with hn
      refine ⟨{ id := db.storySeq, sessionId := sid, title := t, description := d,
                isActive := true }, ?_, ?_, rfl, hn.symm ▸ rfl⟩
      · exact List.mem_append_right _ (List.mem_singleton_self _)
      · show sid = a.id
        have := (beq_iff_eq (a := a.id) (b := sid)).mp hc
        exact this.symm
    · rw [if_neg hc] at hn ⊢
      obtain ⟨st, hstm, hstsid, hstact, hstid⟩ := h3 a ha n hn
      have hfst : (if st.sessionId == sid then { st with isActive := false } else st) = st := by
        apply if_neg
        rw [hstsid]
        simpa using hc
      refine ⟨st, ?_, hstsid, hstact, hstid⟩
      apply List.mem_append_left
      rw [← hfst]
      exact List.mem_map_of_mem _ hstm

theorem goodInv_clearVotes (db : DB) (sid : String) (n? : Option Nat)
    (hok : opOk db (Op.clearVotesAndNextStory sid n?))
    (h : GoodInv db) : GoodInv (clearVotesAndNextStory db sid n?).2 := by
  obtain ⟨h1, h2, h3⟩ := h
  unfold clearVotesAndNextStory
  cases n? with
  | none =>
    dsimp only
    unfold deactivateCurrent
    refine ⟨h1, ?_, ?_⟩
    · intro st hst
      dsimp only at hst
      rcases List.mem_map.mp hst with ⟨a, ha, rfl⟩
      rw [story_update_id]
      exact h2 a ha
    · intro s hs n hn
      dsimp only at hs hn ⊢
      rcases List.mem_map.mp hs with ⟨a, ha, rfl⟩
      by_cases hc : (a.id == sid) = true
      · rw [if_pos hc] at hn
        exact absurd hn (by simp)
      · rw [if_neg hc] at hn ⊢
        obtain ⟨st, hstm, hstsid, hstact, hstid⟩ := h3 a ha n hn
        have hfst : (if st.sessionId == sid && st.isActive then
            { st with isActive := false } else st) = st := by
          apply if_neg
          rw [hstsid]
          simp only [Bool.and_eq_true, beq_iff_eq]
          intro hq
          exact absurd hq.1 (by simpa using hc)
        refine ⟨st, ?_, hstsid, hstact, hstid⟩
        rw [← hfst]
        exact List.mem_map_of_mem _ hstm
  | some n =>
    obtain ⟨st0, hst0m, hst0id, hst0sid⟩ := hok
    have hne : n ≠ 0 := by
      have := h2 st0 hst0m
      omega
    dsimp only
    rw [if_pos (bne_iff_ne.mpr hne)]
    unfold activateTarget
    dsimp only
    rw [List.map_map]
    refine ⟨h1, ?_, ?_⟩
    · intro st hst
      rcases List.mem_map.mp hst with ⟨a, ha, rfl⟩
      simp only [Function.comp]
      rw [story_update_id, story_update_id]
      exact h2 a ha
    · intro s hs n2 hn
      rcases List.mem_map.mp hs with ⟨a, ha, rfl⟩
      by_cases hc : (a.id == sid) = true
      · rw [if_pos hc] at hn ⊢
        dsimp only at hn ⊢
        injection hn with hn
        subst hn
        refine ⟨{ st0 with isActive := true }, ?_, ?_, rfl, hst0id⟩
        · have hd1 : (if st0.sessionId == sid then { st0 with isActive := false } else st0)
              = { st0 with isActive := false } := by
            apply if_pos
            rw [hst0sid]
            simp
          have hd2 : ((fun (st : Story) =>
              if st.id == n && st.sessionId == sid then { st with isActive := true } else st) ∘
              (fun (st : Story) =>
              if st.sessionId == sid then { st with isActive := false } else st)) st0
              = { st0 with isActive := true } := by
            simp only [Function.comp]
            rw [hd1]
            rw [if_pos (by rw [hst0id, hst0sid]; simp)]
          rw [← hd2]
          exact List.mem_map_of_mem _ hst0m
        · show st0.sessionId = a.id
          rw [hst0sid]
          exact ((beq_iff_eq (a := a.id) (b := sid)).mp hc).symm
      · rw [if_neg hc] at hn ⊢
        obtain ⟨st, hstm, hstsid, hstact, hstid⟩ := h3 a ha n2 hn
        have hsidne : (st.sessionId == sid) = false := by
          rw [hstsid]
          simpa using hc
        have hfix : ((fun (st : Story) =>
            if st.id == n && st.sessionId == sid then { st with isActive := true } else st) ∘
            (fun (st : Story) =>
            if st.sessionId == sid then { st with isActive := false } else st)) st = st := by
          simp only [Function.comp]
          rw [if_neg (by simp [hsidne]), if_neg (by simp [hsidne])]
        refine ⟨st, ?_, hstsid, hstact, hstid⟩
        rw [← hfix]
        exact List.mem_map_of_mem _ hstm

theorem goodInv_applyOp (db : DB) (op : Op) (hok : opOk db op)
    (h : GoodInv db) : GoodInv (applyOp db op) := by
  cases op with
  | createSession sid sname hname => exact goodInv_createSession db sid sname hname h
  | joinSession sid u =>
    have hp := joinSession_tables db sid u
    exact goodInv_of_eq hp.1 hp.2.1 hp.2.2.1 h
  | addStory sid t d => exact goodInv_addStory db sid t d h
  | castVote sid pid v =>
    have hp := castVote_tables db sid pid v
    exact goodInv_of_eq hp.1 hp.2.2.1 hp.2.2.2.1 h
  | createBet stId pid v =>
    have hp := createBet_tables db stId pid v
    exact goodInv_of_eq hp.1 hp.2.2.1 hp.2.2.2.1 h
  | revealVotes sid => exact goodInv_revealVotes db sid h
  | clearVotesAndNextStory sid n => exact goodInv_clearVotes db sid n hok h

theorem goodInv_reachableGood {db : DB} (h : ReachableGood db) : GoodInv db := by
  induction h with
  | init =>
    refine ⟨Nat.le_refl 1, ?_, ?_⟩
    · intro st hst
      simp [initDB] at hst
    · intro s hs
      simp [initDB] at hs
  | step hre hok ih => exact goodInv_applyOp _ _ hok ih

/-- C4 counterexample: `crossSessionDB` is reachable by the engine's own
operations (its last step calls `clearVotesAndNextStory "s1" (some 1)`
where story 1 belongs to session "s2"), yet session "s1" ends with
`currentStoryId = some 1` while story 1 is not a story of "s1" at all —
the non-null pointer does not reference an active story of its session. -/
theorem c4_pointer_invariant_counterexample : ¬ CurrentStoryInv crossSessionDB := by
  intro hinv
  have h := hinv { id := "s1", name := "A", currentStoryId := some 1, votesRevealed := false }
    (by decide) 1 rfl
  revert h
  decide

/-- C4 amended: in every state reachable by the engine's operations in
which `clearVotesAndNextStory` is only ever called with a `nextStoryId`
belonging to the target session (or omitted), a non-null
`currentStoryId` references a story that belongs to that session and is
its active story. -/
theorem c4_pointer_invariant_good (db : DB) (h : ReachableGood db) :
    CurrentStoryInv db :=
  (goodInv_reachableGood h).2.2

/-- C4 witness: the invariant evaluated on a concrete good run. -/
theorem c4_pointer_invariant_good_witness :
    CurrentStoryInv (applyOp (applyOp initDB (Op.createSession "s1" "Sprint" "Alice"))
      (Op.addStory "s1" "Story" none)) :=
  c4_pointer_invariant_good _
    (ReachableGood.step (ReachableGood.step ReachableGood.init trivial) trivial)

/-- C5: `createBet` does NOT mirror `castVote`'s value validation: the
input schema has no `POKER_VALUES` refinement, so a bet value outside
the set (here "7", with an active story and a valid participant) is
accepted and a Bet row is written, instead of failing with
`InvalidValue`.  The two extra preconditions the claim lists do hold:
an inactive story yields `InactiveStory`, a participant outside the
story's session yields `ParticipantNotInSession`, and an unknown story
yields `NotFound`. -/
theorem c5_createBet_accepts_invalid_value :
    POKER_VALUES.contains "7" = false ∧
    (createBet oneStoryDB 1 1 "7").1 =
      .ok { id := 1, storyId := 1, participantId := 1, betValue := "7" } ∧
    (createBet oneStoryDB 1 1 "7").2.bets.length = oneStoryDB.bets.length + 1 ∧
    (createBet (clearVotesAndNextStory oneStoryDB "s1" none).2 1 1 "5").1 =
      .error Err.inactiveStory ∧
    (createBet oneStoryDB 1 99 "5").1 = .error Err.participantNotInSession ∧
    (createBet oneStoryDB 99 1 "5").1 = .error Err.notFound := by
  refine ⟨by decide, rfl, by decide, rfl, rfl, rfl⟩
